import Mathlib

/-!
Verification development for `pyliterate/run_markdown.py`, a Markdown
rewriter that executes the Python code blocks embedded in a document and
rewrites the output blocks with captured results.

The document text is modelled as `List Char`.  Python string primitives
(`str.find`, slicing, `str.count`, `str.strip`, `str.lower`, `str.split`)
are given executable definitions.  Execution of Python source is abstracted
by an oracle that, given the current namespace state and a source unit,
returns the mutated state together with either captured output or a raised
exception (kind, message, partial output).  Everything around that oracle —
the fence scanner, the block router of `iterate_blocks`, the line-number
padding, the error normalizer `exec_exception` with its `filename_re`
substitution, the override installation of `exec_source`, and the
`print_iter`/`main` overwrite loop — is translated directly from the source.
-/

namespace Pyliterate

abbrev Chars := List Char

/-- Python `text.count(c)` for a single character. -/
def pyCount (c : Char) (s : Chars) : Nat := s.count c

/-- Python `text[a:b]` for nonnegative bounds. -/
def pySlice (a b : Nat) (s : Chars) : Chars := (s.take b).drop a

/-- Python `text.find(c, i)` for a single character: index of the first
occurrence at position `i` or later, `none` when absent (Python returns -1). -/
def pyFindChar (c : Char) (s : Chars) (i : Nat) : Option Nat :=
  ((s.drop i).findIdx? (fun x => x = c)).map (fun j => i + j)

/-- Python `text.lower()`. -/
def pyLower (s : Chars) : Chars := s.map Char.toLower

/-- Drop the trailing run of characters satisfying `p`. -/
def dropTrailWhile (p : Char → Bool) (s : Chars) : Chars :=
  (s.reverse.dropWhile p).reverse

/-- Python `text.strip('\n')`. -/
def stripNL (s : Chars) : Chars :=
  dropTrailWhile (fun c => c = '\n') (s.dropWhile (fun c => c = '\n'))

/-- Python whitespace as used by `str.strip()` with no argument. -/
def isPyWS (c : Char) : Bool :=
  c = ' ' || c = '\t' || c = '\n' || c = '\r' ||
  c = Char.ofNat 11 || c = Char.ofNat 12

/-- Python `text.strip()`. -/
def pyStrip (s : Chars) : Chars :=
  dropTrailWhile isPyWS (s.dropWhile isPyWS)

/-- Python `text.strip('\n').split('\n')[-1]`, the last-line extraction used
by `exec_syntax_error`. -/
def lastLineOf (raw : Chars) : Chars :=
  ((stripNL raw).splitOn '\n').getLastD []

/-- Character class `[-a-zA-Z0-9_/]` of `filename_re`. -/
def isClassChar (c : Char) : Bool :=
  c = '-' || c.isAlpha || c.isDigit || c = '_' || c = '/'

/-- Length of the match of `filename_re` = `[\.]{0,2}/[-a-zA-Z0-9_/]+(\.py|\.md)`
at the head of `s`, if any.  Since `.` is not in the character class, the
greedy body run is forced to be maximal and the dot count is forced to be the
number of leading dots (at most two). -/
def matchAtLen (s : Chars) : Option Nat :=
  let n := (s.takeWhile (fun c => c = '.')).length
  if n ≤ 2 then
    match s.drop n with
    | '/' :: rest =>
      let r := (rest.takeWhile isClassChar).length
      if 1 ≤ r ∧ ((".py".toList.isPrefixOf (rest.drop r)) ∨
                  (".md".toList.isPrefixOf (rest.drop r)))
      then some (n + 1 + r + 3) else none
    | _ => none
  else none

/-- Fuel-driven scan for `filename_re.sub`: at each position, replace a match
with the placeholder and continue past it, otherwise keep the character and
advance by one.  Each step consumes at least one character (a match is at
least four characters long), so `fuel = s.length` never runs out. -/
def fsubAux : Nat → Chars → Chars
  | 0, _ => []
  | _ + 1, [] => []
  | f + 1, c :: rest =>
    match matchAtLen (c :: rest) with
    | some L => "my_code.py".toList ++ fsubAux f ((c :: rest).drop L)
    | none => c :: fsubAux f rest

/-- Python `filename_re.sub('my_code.py', s)`: left-to-right scan replacing
every (leftmost, non-overlapping) match with the canonical placeholder. -/
def fsub (s : Chars) : Chars := fsubAux s.length s

/-- The display string built by `exec_exception` from a structured failure:
the path-redacted `kind: message` line, prefixed by any partial output and a
`Traceback ...` marker when partial output exists. -/
def normalizeExc (kind msg so : Chars) : Chars :=
  let line := kind ++ ": ".toList ++ fsub msg
  if so = [] then line else so ++ "Traceback ...\n".toList ++ line

/-- Outcome of running one source unit against the persistent namespace:
captured output, or a raised exception with its class name, message, and the
output captured before the fault. -/
inductive ExecResult where
  | ok (out : Chars)
  | err (kind : Chars) (msg : Chars) (sofar : Chars)
deriving DecidableEq, Repr

/-- Fatal conditions that abort a document pass: `MarkdownExecError` raised
by `exec_source`, the `assert False` of `exec_exception` when no exception
was raised, and an unreadable `python-include:` file. -/
inductive Fatal where
  | markdownExecError
  | assertionError
  | ioError
deriving DecidableEq, Repr

/-- External capabilities: the in-process Python executor over namespace
state `σ`, the `python2.7` subprocess stdout, the `python3` subprocess
stderr used for syntax-error probes, the readable files, and the configured
root directory. -/
structure Oracles (σ : Type) where
  ex : σ → Chars → σ × ExecResult
  p2 : Chars → Chars
  py3 : Chars → Chars
  incl : Chars → Option Chars
  rootDir : Chars

/-- The local state of `iterate_blocks`: `text_start`, `source_start`,
`block_suffix`, `pending_source`, `pending_output`, the namespace, and the
fragments yielded so far. -/
structure IterState (σ : Type) where
  textStart : Nat
  sourceStart : Option Nat
  blockSuffix : Chars
  pendingSource : Chars
  pendingOutput : Chars
  ctx : σ
  frags : List Chars
deriving DecidableEq, Repr

/-- Initial state of a document pass. -/
def initState (c : σ) : IterState σ :=
  { textStart := 0, sourceStart := none, blockSuffix := [],
    pendingSource := [], pendingOutput := [], ctx := c, frags := [] }

/-- The blank-line padding applied before appending a segment:
`pending + '\n' * (line_offset - pending.count('\n'))`, where Python's
negative string repetition yields the empty string, exactly like truncated
subtraction. -/
def padPending (pending : Chars) (lineOff : Nat) : Chars :=
  pending ++ List.replicate (lineOff - pyCount '\n' pending) '\n'

/-- `exec_exception`: a structured-failure run that raised is rendered with
`normalizeExc`; a run that did not raise trips `assert False`. -/
def execException : ExecResult → Except Fatal Chars
  | ExecResult.ok _ => Except.error Fatal.assertionError
  | ExecResult.err k msg so => Except.ok (normalizeExc k msg so)

/-- `pending_output += exec_source(path, pending_source, context);
pending_source = ''` — a raised exception becomes `MarkdownExecError`. -/
def flushPending (O : Oracles σ) (st : IterState σ) : Except Fatal (IterState σ) :=
  match O.ex st.ctx st.pendingSource with
  | (c2, ExecResult.ok out) =>
      Except.ok { st with
        ctx := c2
        pendingOutput := st.pendingOutput ++ out
        pendingSource := [] }
  | (_, ExecResult.err _ _ _) => Except.error Fatal.markdownExecError

/-- The body-append and re-emit work shared by the `python` and
`python-exception` arms: pad, append the body to the accumulation, and pass
the fence through verbatim. -/
def appendEmit (st : IterState σ) (sfx src : Chars) (lineOff : Nat) : IterState σ :=
  { st with
    pendingSource := padPending st.pendingSource lineOff ++ src
    frags := st.frags ++ ["```".toList ++ sfx, src, "```".toList] }

/-- The `python` / `python-exception` arm of the closing-fence dispatch. -/
def pythonBranch (O : Oracles σ) (st : IterState σ) (sfx src : Chars)
    (lineOff : Nat) : Except Fatal (IterState σ) :=
  match (if sfx = "python-exception".toList ∧ st.pendingSource ≠ [] then
           flushPending O st
         else Except.ok st) with
  | Except.error e => Except.error e
  | Except.ok st1 =>
    let st2 := appendEmit st1 sfx src lineOff
    if sfx = "python-exception".toList then
      match O.ex st2.ctx st2.pendingSource with
      | (c3, r) =>
        match execException r with
        | Except.ok res =>
            Except.ok { st2 with
              ctx := c3
              pendingOutput := st2.pendingOutput ++ res
              pendingSource := [] }
        | Except.error e => Except.error e
    else Except.ok st2

/-- The `python2` arm: re-emit with a dialect marker when absent, and append
the subprocess output to the pending result. -/
def python2Branch (O : Oracles σ) (st : IterState σ) (src : Chars) : IterState σ :=
  { st with
    frags := st.frags ++ ["```python2".toList] ++
      (if ("\n# Python 2".toList).isPrefixOf src then []
       else ["\n# Python 2".toList]) ++ [src, "```".toList],
    pendingOutput := st.pendingOutput ++ O.p2 src }

/-- The `python-syntax-error` arm: re-emit, probe the primary runtime, and
append the last diagnostic line to the pending result. -/
def synBranch (O : Oracles σ) (st : IterState σ) (src : Chars) : IterState σ :=
  { st with
    frags := st.frags ++ ["```python-syntax-error".toList, src, "```".toList],
    pendingOutput := st.pendingOutput ++ lastLineOf (O.py3 src) }

/-- `os.path.basename`. -/
def basenameP (p : Chars) : Chars :=
  (p.reverse.takeWhile (fun c => ¬ (c = '/'))).reverse

/-- `os.path.join` for the two-argument shapes used here. -/
def joinPath (root p : Chars) : Chars :=
  match p with
  | '/' :: _ => p
  | _ =>
    if root = [] then p
    else if root.getLast? = some '/' then root ++ p
    else root ++ '/' :: p

/-- The `python-include:` arm: read the referenced file and emit a filename
comment followed by the stripped contents; an unreadable file is fatal. -/
def includeBranch (O : Oracles σ) (st : IterState σ) (sfx : Chars) :
    Except Fatal (IterState σ) :=
  let ipath := sfx.drop ("python-include:".toList).length
  match O.incl (joinPath O.rootDir ipath) with
  | none => Except.error Fatal.ioError
  | some data =>
      Except.ok { st with frags := st.frags ++
        ["```".toList ++ sfx ++ ['\n'], "# ".toList ++ basenameP ipath ++ ['\n'],
         pyStrip data, "\n```".toList] }

/-- The output-placeholder arm: flush a non-empty accumulation into the
pending result, otherwise fall back to the block's prior content when no
pending result exists; emit the block with trimmed blank lines and clear the
pending result. -/
def outputBranch (O : Oracles σ) (st : IterState σ) (sfx src : Chars) :
    Except Fatal (IterState σ) :=
  match (if st.pendingSource ≠ [] then flushPending O st
         else if st.pendingOutput = [] then Except.ok { st with pendingOutput := src }
         else Except.ok st) with
  | Except.error e => Except.error e
  | Except.ok st1 =>
      Except.ok { st1 with
        frags := st1.frags ++
          ["```".toList ++ sfx ++ ['\n'], stripNL st1.pendingOutput, "\n```".toList]
        pendingOutput := [] }

/-- One closing-fence step of `iterate_blocks`: compute the block body and
line offset from `source_start` (Python's `None` slice bound behaves as `0`
for a slice start and as end-of-string for a slice stop), advance
`text_start`, and dispatch on the remembered tag. -/
def closeStep (O : Oracles σ) (text : Chars) (st : IterState σ) (m : Nat) :
    Except Fatal (IterState σ) :=
  let src := match st.sourceStart with
    | some ss => pySlice ss m text
    | none => pySlice 0 m text
  let lineOff := match st.sourceStart with
    | some ss => pyCount '\n' (text.take ss)
    | none => pyCount '\n' text
  let stT := { st with textStart := m + 3 }
  let sfx := st.blockSuffix
  if sfx = "python".toList ∨ sfx = "python-exception".toList then
    pythonBranch O stT sfx src lineOff
  else if sfx = "python2".toList then Except.ok (python2Branch O stT src)
  else if sfx = "python-syntax-error".toList then Except.ok (synBranch O stT src)
  else if ("python-include:".toList).isPrefixOf sfx then includeBranch O stT sfx
  else outputBranch O stT sfx src

/-- One opening-fence step of `iterate_blocks`: yield the plain text before
the fence and, when a line break follows the delimiter, record the lowercased
tag and the body start; otherwise the previous tag and body start remain. -/
def openStep (text : Chars) (st : IterState σ) (m : Nat) : IterState σ :=
  let p := match pyFindChar '\n' text (m + 3) with
    | some se => (pyLower (pySlice (m + 3) se text), some se)
    | none => (st.blockSuffix, st.sourceStart)
  { st with
    blockSuffix := p.1
    sourceStart := p.2
    frags := st.frags ++ [pySlice st.textStart m text] }

/-- Non-overlapping occurrences of the triple-backtick delimiter, scanning
left to right from absolute position `i` (the behavior of
`re.finditer('```', text)`). -/
def fenceMatchesAux : Chars → Nat → List Nat
  | [], _ => []
  | '`' :: '`' :: '`' :: rest, i => i :: fenceMatchesAux rest (i + 3)
  | _ :: rest, i => fenceMatchesAux rest (i + 1)

def fenceMatches (text : Chars) : List Nat := fenceMatchesAux text 0

/-- The fence loop of `iterate_blocks`: even-indexed matches open a block,
odd-indexed matches close one. -/
def runMatches (O : Oracles σ) (text : Chars) :
    List Nat → Bool → IterState σ → Except Fatal (IterState σ)
  | [], _, st => Except.ok st
  | m :: ms, false, st => runMatches O text ms true (openStep text st m)
  | m :: ms, true, st =>
    match closeStep O text st m with
    | Except.ok st2 => runMatches O text ms false st2
    | Except.error e => Except.error e

/-- The tail of `iterate_blocks`: yield the text after the last block, then
run any remaining pending code purely to surface errors, discarding its
output. -/
def finishBlocks (O : Oracles σ) (text : Chars) (st : IterState σ) :
    Except Fatal (List Chars × σ) :=
  let frags := st.frags ++ [text.drop st.textStart]
  if st.pendingSource = [] then Except.ok (frags, st.ctx)
  else
    match O.ex st.ctx st.pendingSource with
    | (c2, ExecResult.ok _) => Except.ok (frags, c2)
    | (_, ExecResult.err _ _ _) => Except.error Fatal.markdownExecError

/-- `iterate_blocks(path, text)` over namespace state `c0`: the fragment
sequence and the final namespace, or the fatal condition that aborted the
pass. -/
def iterateBlocks (O : Oracles σ) (text : Chars) (c0 : σ) :
    Except Fatal (List Chars × σ) :=
  match runMatches O text (fenceMatches text) false (initState c0) with
  | Except.ok st => finishBlocks O text st
  | Except.error e => Except.error e

/-- File system abstraction for the overwrite mode: path to contents. -/
abbrev FS := Chars → Chars

def updFS (fs : FS) (p v : Chars) : FS := fun q => if q = p then v else fs q

def concatL (l : List Chars) : Chars := l.foldr (fun a b => a ++ b) []

/-- The batch loop of `main` in `--overwrite` mode: each path is read,
rewritten, and written back only when the whole pass succeeded
(`print_iter` buffers the fragments and writes at the end).  The namespace
state is `__main__.__dict__`, threaded through every document.
`MarkdownExecError` is caught and turns into completion status 1; any other
fatal condition propagates out of `main`.  Either way the loop stops. -/
def mainLoop (O : Oracles σ) : List Chars → FS → σ → FS × Except Fatal Nat
  | [], fs, _ => (fs, Except.ok 0)
  | p :: ps, fs, c =>
    match iterateBlocks O (fs p) c with
    | Except.ok (fr, c2) => mainLoop O ps (updFS fs p (concatL fr)) c2
    | Except.error Fatal.markdownExecError => (fs, Except.ok 1)
    | Except.error e => (fs, Except.error e)

/-! ### The capability bindings of `exec_source`

A separate, finer model of `exec_source` tracking what the call does to the
capability entries of the namespace: it installs `my_print`, `my_pprint`,
`my_debug`, `my_help`, `my_pdb` and the `STDOUT` buffer, runs the user code
(which may itself mutate the namespace), and on the way out — in the
`except` arm and in the `finally` arm — rebinds only `print` to
`REAL_PRINT`. -/

/-- Values a capability key of the namespace can hold. -/
inductive CapVal where
  | realPrint | ovrPrint
  | realPPrint | ovrPPrint
  | realDebug | ovrDebug
  | realHelp | ovrHelp
  | realPdb | ovrPdb
  | bufferVal
  | absent
deriving DecidableEq, Repr

abbrev CtxMap := String → CapVal

def updCtx (ctx : CtxMap) (k : String) (v : CapVal) : CtxMap :=
  fun q => if q = k then v else ctx q

/-- The six bindings installed at the start of every `exec_source` call. -/
def installOverrides (ctx : CtxMap) : CtxMap :=
  updCtx (updCtx (updCtx (updCtx (updCtx (updCtx ctx
    ("print") CapVal.ovrPrint)
    ("pprint") CapVal.ovrPPrint)
    ("debug") CapVal.ovrDebug)
    ("help") CapVal.ovrHelp)
    ("Pdb") CapVal.ovrPdb)
    ("STDOUT") CapVal.bufferVal

/-- How the executed user code finished. -/
inductive RunOutcome where
  | finished
  | raised
deriving DecidableEq, Repr

/-- What the `exec_source` call itself reports. -/
inductive SrcResult where
  | ok
  | wrappedExc
  | mdExecErr
deriving DecidableEq, Repr

/-- The namespace mutations of one `exec_source` call: install the
overrides, run the user code (`run` may mutate the namespace), then restore
`print` — in the `except` arm when the code raised, and in the `finally` arm
on every path. -/
def execSourceCtx (run : CtxMap → CtxMap × RunOutcome) (raiseExc : Bool)
    (ctx : CtxMap) : CtxMap × SrcResult :=
  let c1 := installOverrides ctx
  match run c1 with
  | (c2, RunOutcome.finished) =>
      (updCtx c2 ("print") CapVal.realPrint, SrcResult.ok)
  | (c2, RunOutcome.raised) =>
      let c3 := updCtx c2 ("print") CapVal.realPrint
      let c4 := updCtx c3 ("print") CapVal.realPrint
      (c4, if raiseExc then SrcResult.wrappedExc else SrcResult.mdExecErr)

/-! ### Document shapes for the all-placeholder theorem -/

/-- Pair the fence matches into (opener, closer) pairs; `none` for an odd
match count. -/
def pairUp : List Nat → Option (List (Nat × Nat))
  | [] => some []
  | [_] => none
  | a :: b :: rest => (pairUp rest).map (fun l => (a, b) :: l)

/-- The triple-backtick delimiter sits at position `p` of `text`. -/
def tripleAt (text : Chars) (p : Nat) : Bool :=
  ("```".toList).isPrefixOf (text.drop p)

/-- The tag is none of the recognized executable or directive tags. -/
def tagUnrecognized (t : Chars) : Bool :=
  !(t == "python".toList) && !(t == "python-exception".toList) &&
  !(t == "python2".toList) && !(t == "python-syntax-error".toList) &&
  !(("python-include:".toList).isPrefixOf t)

/-- A run of fence pairs, starting at cursor `t0`, all of which are
output-placeholder blocks in canonical form: the tag is already lowercase
and unrecognized, and the body is exactly a leading newline, its trimmed
content, and a trailing newline. -/
def placeholderPairsOK (text : Chars) : Nat → List (Nat × Nat) → Bool
  | _, [] => true
  | t0, (o, c) :: rest =>
    decide (t0 ≤ o) && tripleAt text o && tripleAt text c &&
    (match pyFindChar '\n' text (o + 3) with
     | none => false
     | some se =>
       decide (o + 3 ≤ se) && decide (se < c) &&
       (pyLower (pySlice (o + 3) se text) == pySlice (o + 3) se text) &&
       tagUnrecognized (pySlice (o + 3) se text) &&
       (pySlice se c text == '\n' :: (stripNL (pySlice se c text) ++ ['\n']))) &&
    placeholderPairsOK text (c + 3) rest

/-! ### Concrete instances for witnesses and counterexamples -/

/-- Oracle whose executor leaves the state alone and captures fixed output. -/
def oUnit : Oracles Unit :=
  { ex := fun u _ => (u, ExecResult.ok ("out\n".toList))
    p2 := fun _ => "A\n".toList
    py3 := fun _ => "tb\nSyntaxError: bad\n".toList
    incl := fun _ => none
    rootDir := [] }

/-- Oracle whose executor always raises `ValueError: boom`. -/
def oErrU : Oracles Unit :=
  { ex := fun u _ => (u, ExecResult.err ("ValueError".toList) ("boom".toList) [])
    p2 := fun _ => []
    py3 := fun _ => []
    incl := fun _ => none
    rootDir := [] }

/-- Oracle whose state records every executed source unit. -/
def oTrace : Oracles (List Chars) :=
  { ex := fun t s => (t ++ [s], ExecResult.ok ("ignored\n".toList))
    p2 := fun _ => []
    py3 := fun _ => []
    incl := fun _ => none
    rootDir := [] }

/-- Oracle whose state counts executions and whose output names the
pre-execution counter, making the namespace seen by each execution
observable in the rewritten document. -/
def oNat : Oracles Nat :=
  { ex := fun n _ => (n + 1, ExecResult.ok (Nat.toDigits 10 n))
    p2 := fun _ => []
    py3 := fun _ => []
    incl := fun _ => none
    rootDir := [] }

/-- A document with one executable block and one output block. -/
def docPy : Chars := "```python\nx\n```\n```\nold\n```\n".toList

/-- Two distinct paths, both holding `docPy`. -/
def pathA : Chars := "a.md".toList

def pathB : Chars := "b.md".toList

def fs0 : FS := fun _ => docPy

/-- An all-placeholder document whose block body carries extra blank lines. -/
def docBlank : Chars := "pre\n```\n\nX\n\n```\npost\n".toList

/-- An all-placeholder document in canonical form. -/
def docCanon : Chars := "pre\n```tag\nbody\n```\npost\n".toList

/-- A document whose trailing executable block is never consumed. -/
def docTrail : Chars := "h\n```python\ncode\n```\ntail".toList

/-- A state about to close a `python-exception` block with no unrelated
pending accumulation. -/
def stExc : IterState Unit :=
  { initState () with blockSuffix := "python-exception".toList, sourceStart := some 0 }

/-- A state about to close an untagged output block while a pending result
ending in a newline is present. -/
def stOut : IterState Unit :=
  { initState () with blockSuffix := [], sourceStart := some 0,
                      pendingOutput := "A\n".toList }

/-- A state remembering the tag `python` from an earlier opener. -/
def stPy : IterState Unit :=
  { initState () with blockSuffix := "python".toList }

/-- A state about to close an untagged output block while both a pending
accumulation and a pending result are present. -/
def stBoth : IterState Unit :=
  { initState () with sourceStart := some 0, pendingSource := "p".toList,
                      pendingOutput := "R\n".toList }

/-- A state about to close an untagged output block with no pending
accumulation and no pending result. -/
def stEmpty : IterState Unit :=
  { initState () with sourceStart := some 0 }

/-- A state about to close a `python2` block. -/
def stP2 : IterState Unit :=
  { initState () with blockSuffix := "python2".toList, sourceStart := some 0 }

/-- A counting-namespace state with one pending source unit. -/
def stFlush : IterState Nat :=
  { initState 5 with pendingSource := "x".toList }

/-- The state of the fence loop after scanning all of `docTrail`. -/
def stTrail : IterState (List Chars) :=
  { textStart := 20, sourceStart := some 11, blockSuffix := "python".toList,
    pendingSource := "\n\ncode\n".toList, pendingOutput := [], ctx := [],
    frags := ["h\n".toList, "```python".toList, "\ncode\n".toList, "```".toList] }

/-- A namespace in which `pprint` is bound to the real implementation. -/
def ctxReal : CtxMap :=
  fun k => if k = "pprint" then CapVal.realPPrint else CapVal.absent

/-- User code that finishes normally without touching the namespace. -/
def runId : CtxMap → CtxMap × RunOutcome := fun c => (c, RunOutcome.finished)

/-! ### Slice and count lemmas -/

theorem pySlice_eq (a b : Nat) (l : Chars) :
    pySlice a b l = (l.drop a).take (b - a) := by
  simp [pySlice, List.drop_take]

theorem pySlice_zero (b : Nat) (l : Chars) : pySlice 0 b l = l.take b := by
  simp [pySlice]

theorem pySlice_append {a b c : Nat} (l : Chars) (h1 : a ≤ b) (h2 : b ≤ c) :
    pySlice a b l ++ pySlice b c l = pySlice a c l := by
  have hb : l.take b = (l.take c).take b := by
    rw [List.take_take, Nat.min_eq_left h2]
  show (l.take b).drop a ++ (l.take c).drop b = (l.take c).drop a
  rw [hb, List.drop_take]
  have hd : (l.take c).drop b = ((l.take c).drop a).drop (b - a) := by
    rw [List.drop_drop, Nat.add_sub_cancel' h1]
  rw [hd, List.take_append_drop]

theorem pySlice_of_prefix (pat l : Chars) (p : Nat)
    (h : pat.isPrefixOf (l.drop p) = true) :
    pySlice p (p + pat.length) l = pat := by
  rw [pySlice_eq, Nat.add_sub_cancel_left]
  obtain ⟨t, ht⟩ := List.isPrefixOf_iff_prefix.mp h
  rw [← ht, List.take_left]

theorem pyCount_append (c : Char) (a b : Chars) :
    pyCount c (a ++ b) = pyCount c a + pyCount c b :=
  List.count_append c a b

theorem pyCount_replicate (c : Char) (n : Nat) :
    pyCount c (List.replicate n c) = n := by
  simp [pyCount, List.count_replicate]

/-- C2: before a `python` segment is appended, the accumulator pads the
pending unit with `line_offset - pending.count('\n')` blank lines (exactly
`delta` of them, none when `delta` is not positive), so that whenever the
pending unit has at most `line_offset` newlines the appended body starts
after exactly `line_offset` newlines of the unit — the same line number it
has in the document; the `python` arm of the dispatch produces exactly this
padded-and-appended pending unit. -/
theorem c2_line_alignment :
    (∀ (pending : Chars) (lineOff : Nat),
       padPending pending lineOff =
         pending ++ List.replicate (lineOff - pyCount '\n' pending) '\n')
    ∧ (∀ (pending : Chars) (lineOff : Nat), pyCount '\n' pending ≤ lineOff →
       pyCount '\n' (padPending pending lineOff) = lineOff)
    ∧ (∀ (σ : Type) (O : Oracles σ) (st : IterState σ) (src : Chars) (lineOff : Nat),
       pythonBranch O st ("python".toList) src lineOff =
         Except.ok { st with
           pendingSource := padPending st.pendingSource lineOff ++ src
           frags := st.frags ++ ["```python".toList, src, "```".toList] }) := by
  refine ⟨fun pending lineOff => rfl, fun pending lineOff h => ?_, ?_⟩
  · rw [padPending, pyCount_append, pyCount_replicate]
    omega
  · intro σ O st src lineOff
    simp [pythonBranch]
    rfl

/-- C2 witness: padding a two-newline unit to line offset 5 inserts three
blank lines, after which the unit has exactly five newlines. -/
theorem c2_witness :
    pyCount '\n' ("a\nb\nc".toList) ≤ 5 ∧
    pyCount '\n' (padPending ("a\nb\nc".toList) 5) = 5 :=
  ⟨by decide, c2_line_alignment.2.1 ("a\nb\nc".toList) 5 (by decide)⟩

/-- C4: the error normalizer renders a structured failure as
`kind: message` with every `filename_re` match of the message replaced by
the canonical placeholder `my_code.py`; partial output, when present, is
prefixed together with a literal `Traceback ...` marker line; and a
`python-exception` run that raised `ValueError: boom` is captured as the
string `ValueError: boom` rather than a fatal condition. -/
theorem c4_error_normalizer :
    (∀ kind msg : Chars,
       normalizeExc kind msg [] = kind ++ ": ".toList ++ fsub msg)
    ∧ (∀ kind msg so : Chars, so ≠ [] →
       normalizeExc kind msg so =
         so ++ "Traceback ...\n".toList ++ (kind ++ ": ".toList ++ fsub msg))
    ∧ fsub ("cannot open ./mydir/code.py here".toList) =
        "cannot open my_code.py here".toList
    ∧ execException (ExecResult.err ("ValueError".toList) ("boom".toList) []) =
        Except.ok ("ValueError: boom".toList) := by
  refine ⟨fun kind msg => ?_, fun kind msg so h => ?_, by decide, rfl⟩
  · rw [normalizeExc, if_pos rfl]
  · rw [normalizeExc, if_neg h]

/-- C4 witness: the partial-output case at concrete inputs. -/
theorem c4_witness :
    ("o\n".toList : Chars) ≠ [] ∧
    normalizeExc ("E".toList) ("m".toList) ("o\n".toList) =
      "o\n".toList ++ "Traceback ...\n".toList ++
        ("E".toList ++ ": ".toList ++ fsub ("m".toList)) :=
  ⟨by decide, c4_error_normalizer.2.1 ("E".toList) ("m".toList) ("o\n".toList) (by decide)⟩

/-- C7, amended: every `exec_source` call leaves `print` bound to the real
implementation on every exit path — success, caught failure, uncaught
failure — before the call reports its outcome; every other key, including
the five remaining capability overrides installed at the start of the call,
is left exactly as the executed code left it, which for untouched keys is
the installed override, not the real/default implementation. -/
theorem c7_override_restoration :
    (∀ (run : CtxMap → CtxMap × RunOutcome) (b : Bool) (ctx : CtxMap),
       (execSourceCtx run b ctx).1 ("print") = CapVal.realPrint)
    ∧ (∀ (run : CtxMap → CtxMap × RunOutcome) (b : Bool) (ctx : CtxMap)
         (k : String), k ≠ "print" →
       (execSourceCtx run b ctx).1 k = (run (installOverrides ctx)).1 k)
    ∧ (∀ ctx : CtxMap,
       installOverrides ctx ("pprint") = CapVal.ovrPPrint ∧
       installOverrides ctx ("debug") = CapVal.ovrDebug ∧
       installOverrides ctx ("help") = CapVal.ovrHelp ∧
       installOverrides ctx ("Pdb") = CapVal.ovrPdb ∧
       installOverrides ctx ("STDOUT") = CapVal.bufferVal ∧
       installOverrides ctx ("print") = CapVal.ovrPrint) := by
  refine ⟨fun run b ctx => ?_, fun run b ctx k hk => ?_, fun ctx => ?_⟩
  · rw [execSourceCtx]
    rcases run (installOverrides ctx) with ⟨c2, o⟩
    cases o <;> simp [updCtx]
  · rw [execSourceCtx]
    rcases h : run (installOverrides ctx) with ⟨c2, o⟩
    cases o <;> simp [updCtx, if_neg hk, h]
  · refine ⟨?_, ?_, ?_, ?_, ?_, ?_⟩ <;> simp [installOverrides, updCtx]

/-- C7 witness: for identity user code over a namespace whose `pprint` is
real, the call hands `pprint` back exactly as the executed code left it. -/
theorem c7_witness :
    ("pprint" : String) ≠ "print" ∧
    (execSourceCtx runId false ctxReal).1 ("pprint") =
      (runId (installOverrides ctxReal)).1 ("pprint") :=
  ⟨by decide, c7_override_restoration.2.1 runId false ctxReal _ (by decide)⟩

/-- C7 counterexample: `pprint` was bound to the real implementation before
the call and is left bound to the override afterwards, so the claim that all
capability overrides are reverted on every exit path fails. -/
theorem c7_counterexample :
    (execSourceCtx runId false ctxReal).1 ("pprint") = CapVal.ovrPPrint ∧
    ctxReal ("pprint") = CapVal.realPPrint ∧
    CapVal.ovrPPrint ≠ CapVal.realPPrint := by
  refine ⟨?_, by decide, by decide⟩
  rfl

/-- C8, amended: when a line break follows the opening delimiter the tag is
the text up to it, lowercased, and the body start is recorded; when no line
break follows, the tag and body start simply keep their previous values —
which are the empty tag and `None` only for a first opener, not in
general. -/
theorem c8_opening_tag :
    (∀ (σ : Type) (text : Chars) (st : IterState σ) (m se : Nat),
       pyFindChar '\n' text (m + 3) = some se →
       (openStep text st m).blockSuffix = pyLower (pySlice (m + 3) se text) ∧
       (openStep text st m).sourceStart = some se)
    ∧ (∀ (σ : Type) (text : Chars) (st : IterState σ) (m : Nat),
       pyFindChar '\n' text (m + 3) = none →
       (openStep text st m).blockSuffix = st.blockSuffix ∧
       (openStep text st m).sourceStart = st.sourceStart)
    ∧ (∀ (σ : Type) (c : σ), (initState c).blockSuffix = []) := by
  refine ⟨fun σ text st m se h => ?_, fun σ text st m h => ?_, fun σ c => rfl⟩
  · rw [openStep, h]
    exact ⟨rfl, rfl⟩
  · rw [openStep, h]
    exact ⟨rfl, rfl⟩

/-- C8 witness: a first opener followed by a line break gets the lowercased
tag text. -/
theorem c8_witness :
    pyFindChar '\n' ("```TAG\nx".toList) (0 + 3) = some 6 ∧
    (openStep ("```TAG\nx".toList) (initState ()) 0).blockSuffix =
      pyLower (pySlice (0 + 3) 6 ("```TAG\nx".toList)) :=
  ⟨by decide, (c8_opening_tag.1 Unit ("```TAG\nx".toList) (initState ()) 0 6 (by decide)).1⟩

/-! ### Dispatch lemmas for the closing-fence router -/

theorem closeStep_eq_exc {σ : Type} (O : Oracles σ) (text : Chars)
    (st : IterState σ) (m ss : Nat)
    (hsfx : st.blockSuffix = "python-exception".toList)
    (hss : st.sourceStart = some ss) :
    closeStep O text st m =
      pythonBranch O { st with textStart := m + 3 } ("python-exception".toList)
        (pySlice ss m text) (pyCount '\n' (text.take ss)) := by
  simp only [closeStep, hss, hsfx]
  simp

theorem closeStep_eq_python {σ : Type} (O : Oracles σ) (text : Chars)
    (st : IterState σ) (m ss : Nat)
    (hsfx : st.blockSuffix = "python".toList)
    (hss : st.sourceStart = some ss) :
    closeStep O text st m =
      pythonBranch O { st with textStart := m + 3 } ("python".toList)
        (pySlice ss m text) (pyCount '\n' (text.take ss)) := by
  simp only [closeStep, hss, hsfx]
  simp

theorem closeStep_eq_python2 {σ : Type} (O : Oracles σ) (text : Chars)
    (st : IterState σ) (m ss : Nat)
    (hsfx : st.blockSuffix = "python2".toList)
    (hss : st.sourceStart = some ss) :
    closeStep O text st m =
      Except.ok (python2Branch O { st with textStart := m + 3 } (pySlice ss m text)) := by
  simp only [closeStep, hss, hsfx]
  simp

theorem closeStep_eq_syn {σ : Type} (O : Oracles σ) (text : Chars)
    (st : IterState σ) (m ss : Nat)
    (hsfx : st.blockSuffix = "python-syntax-error".toList)
    (hss : st.sourceStart = some ss) :
    closeStep O text st m =
      Except.ok (synBranch O { st with textStart := m + 3 } (pySlice ss m text)) := by
  simp only [closeStep, hss, hsfx]
  simp

theorem tagUnrecognized_spec (t : Chars) (h : tagUnrecognized t = true) :
    t ≠ "python".toList ∧ t ≠ "python-exception".toList ∧
    t ≠ "python2".toList ∧ t ≠ "python-syntax-error".toList ∧
    ("python-include:".toList).isPrefixOf t = false := by
  simp only [tagUnrecognized, Bool.and_eq_true, Bool.not_eq_true', beq_eq_false_iff_ne,
    ne_eq] at h
  exact ⟨h.1.1.1.1, h.1.1.1.2, h.1.1.2, h.1.2, h.2⟩

theorem closeStep_eq_output {σ : Type} (O : Oracles σ) (text : Chars)
    (st : IterState σ) (m ss : Nat)
    (hsfx : tagUnrecognized st.blockSuffix = true)
    (hss : st.sourceStart = some ss) :
    closeStep O text st m =
      outputBranch O { st with textStart := m + 3 } st.blockSuffix (pySlice ss m text) := by
  obtain ⟨h1, h2, h3, h4, h5⟩ := tagUnrecognized_spec _ hsfx
  simp only [closeStep, hss]
  rw [if_neg (by rintro (h | h) <;> [exact h1 h; exact h2 h]),
      if_neg h3, if_neg h4, if_neg (by rw [h5]; exact Bool.false_ne_true)]

/-! ### Branch behavior lemmas -/

theorem pythonBranch_plain {σ : Type} (O : Oracles σ) (st : IterState σ)
    (src : Chars) (lineOff : Nat) :
    pythonBranch O st ("python".toList) src lineOff =
      Except.ok (appendEmit st ("python".toList) src lineOff) := by
  rw [pythonBranch, if_neg (by rintro ⟨h, _⟩; exact absurd h (by decide))]
  simp

theorem flushPending_ok {σ : Type} (O : Oracles σ) (st : IterState σ)
    (c2 : σ) (out : Chars) (hex : O.ex st.ctx st.pendingSource = (c2, ExecResult.ok out)) :
    flushPending O st = Except.ok { st with
      ctx := c2
      pendingOutput := st.pendingOutput ++ out
      pendingSource := [] } := by
  rw [flushPending, hex]

theorem flushPending_err {σ : Type} (O : Oracles σ) (st : IterState σ)
    (c2 : σ) (k mg so : Chars)
    (hex : O.ex st.ctx st.pendingSource = (c2, ExecResult.err k mg so)) :
    flushPending O st = Except.error Fatal.markdownExecError := by
  rw [flushPending, hex]

theorem pythonBranch_exc_err {σ : Type} (O : Oracles σ) (st : IterState σ)
    (src : Chars) (lineOff : Nat) (c3 : σ) (k mg so : Chars)
    (hps : st.pendingSource = [])
    (hex : O.ex st.ctx (padPending [] lineOff ++ src) = (c3, ExecResult.err k mg so)) :
    pythonBranch O st ("python-exception".toList) src lineOff =
      Except.ok { st with
        ctx := c3
        pendingSource := []
        pendingOutput := st.pendingOutput ++ normalizeExc k mg so
        frags := st.frags ++ ["```python-exception".toList, src, "```".toList] } := by
  rw [pythonBranch, if_neg (by rintro ⟨_, h⟩; exact h hps)]
  simp only [appendEmit, hps, if_true]
  simp only [hex]
  simp [execException]

theorem pythonBranch_exc_ok {σ : Type} (O : Oracles σ) (st : IterState σ)
    (src : Chars) (lineOff : Nat) (c3 : σ) (out2 : Chars)
    (hps : st.pendingSource = [])
    (hex : O.ex st.ctx (padPending [] lineOff ++ src) = (c3, ExecResult.ok out2)) :
    pythonBranch O st ("python-exception".toList) src lineOff =
      Except.error Fatal.assertionError := by
  rw [pythonBranch, if_neg (by rintro ⟨_, h⟩; exact h hps)]
  simp only [appendEmit, hps, if_true]
  simp only [hex]
  simp [execException]

theorem pythonBranch_exc_flush_err {σ : Type} (O : Oracles σ) (st : IterState σ)
    (src : Chars) (lineOff : Nat) (c2 : σ) (k mg so : Chars)
    (hne : st.pendingSource ≠ [])
    (hex : O.ex st.ctx st.pendingSource = (c2, ExecResult.err k mg so)) :
    pythonBranch O st ("python-exception".toList) src lineOff =
      Except.error Fatal.markdownExecError := by
  rw [pythonBranch, if_pos ⟨rfl, hne⟩, flushPending_err O st c2 k mg so hex]

theorem pythonBranch_exc_flush_ok_err {σ : Type} (O : Oracles σ) (st : IterState σ)
    (src : Chars) (lineOff : Nat) (c2 c3 : σ) (out k mg so : Chars)
    (hne : st.pendingSource ≠ [])
    (hex1 : O.ex st.ctx st.pendingSource = (c2, ExecResult.ok out))
    (hex2 : O.ex c2 (padPending [] lineOff ++ src) = (c3, ExecResult.err k mg so)) :
    pythonBranch O st ("python-exception".toList) src lineOff =
      Except.ok { st with
        ctx := c3
        pendingSource := []
        pendingOutput := (st.pendingOutput ++ out) ++ normalizeExc k mg so
        frags := st.frags ++ ["```python-exception".toList, src, "```".toList] } := by
  rw [pythonBranch, if_pos ⟨rfl, hne⟩, flushPending_ok O st c2 out hex1]
  simp only [appendEmit, if_true]
  simp only [hex2]
  simp [execException]

theorem pythonBranch_exc_flush_ok_ok {σ : Type} (O : Oracles σ) (st : IterState σ)
    (src : Chars) (lineOff : Nat) (c2 c3 : σ) (out out2 : Chars)
    (hne : st.pendingSource ≠ [])
    (hex1 : O.ex st.ctx st.pendingSource = (c2, ExecResult.ok out))
    (hex2 : O.ex c2 (padPending [] lineOff ++ src) = (c3, ExecResult.ok out2)) :
    pythonBranch O st ("python-exception".toList) src lineOff =
      Except.error Fatal.assertionError := by
  rw [pythonBranch, if_pos ⟨rfl, hne⟩, flushPending_ok O st c2 out hex1]
  simp only [appendEmit, if_true]
  simp only [hex2]
  simp [execException]

theorem outputBranch_flush_ok {σ : Type} (O : Oracles σ) (st : IterState σ)
    (sfx src : Chars) (c2 : σ) (out : Chars)
    (hne : st.pendingSource ≠ [])
    (hex : O.ex st.ctx st.pendingSource = (c2, ExecResult.ok out)) :
    outputBranch O st sfx src =
      Except.ok { st with
        ctx := c2
        pendingSource := []
        pendingOutput := []
        frags := st.frags ++ ["```".toList ++ sfx ++ ['\n'],
                              stripNL (st.pendingOutput ++ out), "\n```".toList] } := by
  rw [outputBranch, if_pos hne, flushPending_ok O st c2 out hex]

theorem outputBranch_flush_err {σ : Type} (O : Oracles σ) (st : IterState σ)
    (sfx src : Chars) (c2 : σ) (k mg so : Chars)
    (hne : st.pendingSource ≠ [])
    (hex : O.ex st.ctx st.pendingSource = (c2, ExecResult.err k mg so)) :
    outputBranch O st sfx src = Except.error Fatal.markdownExecError := by
  rw [outputBranch, if_pos hne, flushPending_err O st c2 k mg so hex]

theorem outputBranch_draft {σ : Type} (O : Oracles σ) (st : IterState σ)
    (sfx src : Chars)
    (hps : st.pendingSource = []) (hpo : st.pendingOutput = []) :
    outputBranch O st sfx src =
      Except.ok { st with
        pendingOutput := []
        frags := st.frags ++ ["```".toList ++ sfx ++ ['\n'],
                              stripNL src, "\n```".toList] } := by
  rw [outputBranch, if_neg (by simp [hps]), if_pos hpo]

theorem outputBranch_reuse {σ : Type} (O : Oracles σ) (st : IterState σ)
    (sfx src : Chars)
    (hps : st.pendingSource = []) (hpo : st.pendingOutput ≠ []) :
    outputBranch O st sfx src =
      Except.ok { st with
        pendingOutput := []
        frags := st.frags ++ ["```".toList ++ sfx ++ ['\n'],
                              stripNL st.pendingOutput, "\n```".toList] } := by
  rw [outputBranch, if_neg (by simp [hps]), if_neg hpo]

/-- C8 counterexample: an opener with no following line break keeps the
previous opener's tag (`python` here), not the empty tag as claimed. -/
theorem c8_counterexample :
    (openStep ("```abc".toList) stPy 0).blockSuffix = "python".toList ∧
    "python".toList ≠ ([] : Chars) :=
  ⟨by decide, by decide⟩

/-- C3, amended: for a `python-exception` closing fence, any unrelated
pending accumulation is executed (flushed) first — appending its output to
the pending result, while a failure there aborts the pass as
`MarkdownExecError` rather than being swallowed — then the block's body is
appended (after line padding) and the whole pending unit is immediately
executed in structured-failure mode; the captured result made available to
the next output block is the normalized exception string when the unit
raises, and a unit that raises no exception is an `assert False` fatal
failure: normal output is never captured. -/
theorem c3_exception_block (σ : Type) (O : Oracles σ) (text : Chars)
    (st : IterState σ) (m ss : Nat)
    (hsfx : st.blockSuffix = "python-exception".toList)
    (hss : st.sourceStart = some ss) :
    (∀ (c2 c3 : σ) (out k mg so : Chars),
       st.pendingSource ≠ [] →
       O.ex st.ctx st.pendingSource = (c2, ExecResult.ok out) →
       O.ex c2 (padPending [] (pyCount '\n' (text.take ss)) ++ pySlice ss m text) =
         (c3, ExecResult.err k mg so) →
       closeStep O text st m = Except.ok { st with
         textStart := m + 3
         ctx := c3
         pendingSource := []
         pendingOutput := (st.pendingOutput ++ out) ++ normalizeExc k mg so
         frags := st.frags ++
           ["```python-exception".toList, pySlice ss m text, "```".toList] })
    ∧ (∀ (c2 : σ) (k mg so : Chars),
       st.pendingSource ≠ [] →
       O.ex st.ctx st.pendingSource = (c2, ExecResult.err k mg so) →
       closeStep O text st m = Except.error Fatal.markdownExecError)
    ∧ (∀ (c3 : σ) (k mg so : Chars),
       st.pendingSource = [] →
       O.ex st.ctx (padPending [] (pyCount '\n' (text.take ss)) ++ pySlice ss m text) =
         (c3, ExecResult.err k mg so) →
       closeStep O text st m = Except.ok { st with
         textStart := m + 3
         ctx := c3
         pendingSource := []
         pendingOutput := st.pendingOutput ++ normalizeExc k mg so
         frags := st.frags ++
           ["```python-exception".toList, pySlice ss m text, "```".toList] })
    ∧ (∀ (c2 c3 : σ) (out out2 : Chars),
       st.pendingSource ≠ [] →
       O.ex st.ctx st.pendingSource = (c2, ExecResult.ok out) →
       O.ex c2 (padPending [] (pyCount '\n' (text.take ss)) ++ pySlice ss m text) =
         (c3, ExecResult.ok out2) →
       closeStep O text st m = Except.error Fatal.assertionError) := by
  refine ⟨fun c2 c3 out k mg so hne hex1 hex2 => ?_,
          fun c2 k mg so hne hex1 => ?_,
          fun c3 k mg so hps hex => ?_,
          fun c2 c3 out out2 hne hex1 hex2 => ?_⟩
  · rw [closeStep_eq_exc O text st m ss hsfx hss]
    exact pythonBranch_exc_flush_ok_err O _ _ _ c2 c3 out k mg so hne hex1 hex2
  · rw [closeStep_eq_exc O text st m ss hsfx hss]
    exact pythonBranch_exc_flush_err O _ _ _ c2 k mg so hne hex1
  · rw [closeStep_eq_exc O text st m ss hsfx hss]
    exact pythonBranch_exc_err O _ _ _ c3 k mg so hps hex
  · rw [closeStep_eq_exc O text st m ss hsfx hss]
    exact pythonBranch_exc_flush_ok_ok O _ _ _ c2 c3 out out2 hne hex1 hex2

/-- C3 witness: a `python-exception` block whose unit raises
`ValueError: boom` contributes the normalized string to the pending
result. -/
theorem c3_witness :
    closeStep oErrU ("x\n".toList) stExc 2 = Except.ok { stExc with
      textStart := 2 + 3
      ctx := ()
      pendingSource := []
      pendingOutput := stExc.pendingOutput ++
        normalizeExc ("ValueError".toList) ("boom".toList) []
      frags := stExc.frags ++
        ["```python-exception".toList, pySlice 0 2 ("x\n".toList), "```".toList] } :=
  (c3_exception_block Unit oErrU ("x\n".toList) stExc 2 0 rfl rfl).2.2.1
    () ("ValueError".toList) ("boom".toList) [] rfl rfl

/-- C3 counterexample: a `python-exception` unit that raises no exception
does not make its normal output available to the next output block — the
pass aborts with the `assert False` assertion failure of `exec_exception`
instead. -/
theorem c3_counterexample :
    closeStep oUnit ("x\n".toList) stExc 2 = Except.error Fatal.assertionError := rfl

/-- C9: at the end of the document pass, a never-consumed pending
accumulation is executed exactly once — the final namespace is the result of
that single execution — and its captured output is discarded: the emitted
fragments are the scanned fragments plus the text tail, whatever the output
was; a failure there still aborts the pass. -/
theorem c9_trailing_validation (σ : Type) (O : Oracles σ) (text : Chars) (c0 : σ)
    (st : IterState σ)
    (hrun : runMatches O text (fenceMatches text) false (initState c0) = Except.ok st)
    (hne : st.pendingSource ≠ []) :
    (∀ (c2 : σ) (out : Chars),
       O.ex st.ctx st.pendingSource = (c2, ExecResult.ok out) →
       iterateBlocks O text c0 = Except.ok (st.frags ++ [text.drop st.textStart], c2))
    ∧ (∀ (c2 : σ) (k mg so : Chars),
       O.ex st.ctx st.pendingSource = (c2, ExecResult.err k mg so) →
       iterateBlocks O text c0 = Except.error Fatal.markdownExecError) := by
  constructor
  · intro c2 out hex
    rw [iterateBlocks, hrun]
    simp only [finishBlocks, if_neg hne, hex]
  · intro c2 k mg so hex
    rw [iterateBlocks, hrun]
    simp only [finishBlocks, if_neg hne, hex]

/-- C9 witness: the trailing `python` block of `docTrail` is executed once
(the trace gains exactly its padded unit) and its output never reaches the
fragments. -/
theorem c9_witness :
    iterateBlocks oTrace docTrail [] =
      Except.ok (stTrail.frags ++ [docTrail.drop stTrail.textStart],
                 [] ++ ["\n\ncode\n".toList]) :=
  (c9_trailing_validation (List Chars) oTrace docTrail [] stTrail rfl (by decide)).1
    ([] ++ ["\n\ncode\n".toList]) ("ignored\n".toList) rfl

/-- C10, amended: each non-placeholder generator appends its result to the
single pending result string by concatenation rather than replacing it —
`python2` subprocess output, `python-syntax-error` last diagnostic lines,
`python-exception` normalizations, and `python` accumulations flushed at a
placeholder — and the next placeholder block receives their concatenation in
document order, trimmed of surrounding blank lines, as its content. -/
theorem c10_result_concatenation (σ : Type) (O : Oracles σ) (text : Chars)
    (st : IterState σ) (m ss : Nat)
    (hss : st.sourceStart = some ss) :
    (st.blockSuffix = "python2".toList →
       closeStep O text st m = Except.ok { st with
         textStart := m + 3
         pendingOutput := st.pendingOutput ++ O.p2 (pySlice ss m text)
         frags := st.frags ++ ["```python2".toList] ++
           (if ("\n# Python 2".toList).isPrefixOf (pySlice ss m text) then []
            else ["\n# Python 2".toList]) ++ [pySlice ss m text, "```".toList] })
    ∧ (st.blockSuffix = "python-syntax-error".toList →
       closeStep O text st m = Except.ok { st with
         textStart := m + 3
         pendingOutput := st.pendingOutput ++ lastLineOf (O.py3 (pySlice ss m text))
         frags := st.frags ++
           ["```python-syntax-error".toList, pySlice ss m text, "```".toList] })
    ∧ (st.blockSuffix = "python-exception".toList → st.pendingSource = [] →
       ∀ (c3 : σ) (k mg so : Chars),
       O.ex st.ctx (padPending [] (pyCount '\n' (text.take ss)) ++ pySlice ss m text) =
         (c3, ExecResult.err k mg so) →
       closeStep O text st m = Except.ok { st with
         textStart := m + 3
         ctx := c3
         pendingSource := []
         pendingOutput := st.pendingOutput ++ normalizeExc k mg so
         frags := st.frags ++
           ["```python-exception".toList, pySlice ss m text, "```".toList] })
    ∧ (tagUnrecognized st.blockSuffix = true → st.pendingSource ≠ [] →
       ∀ (c2 : σ) (out : Chars),
       O.ex st.ctx st.pendingSource = (c2, ExecResult.ok out) →
       closeStep O text st m = Except.ok { st with
         textStart := m + 3
         ctx := c2
         pendingSource := []
         pendingOutput := []
         frags := st.frags ++ ["```".toList ++ st.blockSuffix ++ ['\n'],
           stripNL (st.pendingOutput ++ out), "\n```".toList] }) := by
  refine ⟨fun h2 => ?_, fun hsy => ?_, fun hpe hps c3 k mg so hex => ?_,
          fun htag hne c2 out hex => ?_⟩
  · rw [closeStep_eq_python2 O text st m ss h2 hss]
    rfl
  · rw [closeStep_eq_syn O text st m ss hsy hss]
    rfl
  · rw [closeStep_eq_exc O text st m ss hpe hss]
    exact pythonBranch_exc_err O _ _ _ c3 k mg so hps hex
  · rw [closeStep_eq_output O text st m ss htag hss]
    exact outputBranch_flush_ok O _ st.blockSuffix _ c2 out hne hex

/-- C10 witness: a `python2` block appends the subprocess output to the
pending result. -/
theorem c10_witness :
    closeStep oUnit ("zz".toList) stP2 0 = Except.ok { stP2 with
      textStart := 0 + 3
      pendingOutput := stP2.pendingOutput ++ oUnit.p2 (pySlice 0 0 ("zz".toList))
      frags := stP2.frags ++ ["```python2".toList] ++
        (if ("\n# Python 2".toList).isPrefixOf (pySlice 0 0 ("zz".toList)) then []
         else ["\n# Python 2".toList]) ++ [pySlice 0 0 ("zz".toList), "```".toList] } :=
  (c10_result_concatenation Unit oUnit ("zz".toList) stP2 0 0 rfl).1 rfl

/-- C10 counterexample: a placeholder following a pending result `A\n`
emits the trimmed content `A`, not the untrimmed concatenation `A\n`, so
the concatenation is not the block's content verbatim. -/
theorem c10_counterexample :
    Except.map (fun s => IterState.frags s) (closeStep oUnit ("xx".toList) stOut 0) =
      Except.ok ["```\n".toList, "A".toList, "\n```".toList] ∧
    "A".toList ≠ "A\n".toList :=
  ⟨rfl, by decide⟩

/-! ### The all-placeholder pass -/

theorem pySlice_self (a : Nat) (l : Chars) : pySlice a a l = [] := by
  simp [pySlice_eq]

theorem concatL_cons (x : Chars) (xs : List Chars) :
    concatL (x :: xs) = x ++ concatL xs := rfl

theorem concatL_append (xs ys : List Chars) :
    concatL (xs ++ ys) = concatL xs ++ concatL ys := by
  induction xs with
  | nil => rfl
  | cons a as ih => simp [concatL_cons, ih, List.append_assoc]

theorem pairUp_eq_nil (ms : List Nat) (h : pairUp ms = some []) : ms = [] := by
  match ms with
  | [] => rfl
  | [a] => simp [pairUp] at h
  | a :: b :: rest => simp [pairUp, Option.map_eq_some'] at h

theorem pairUp_eq_cons (ms : List Nat) (o c : Nat) (rest : List (Nat × Nat))
    (h : pairUp ms = some ((o, c) :: rest)) :
    ∃ ms', ms = o :: c :: ms' ∧ pairUp ms' = some rest := by
  match ms with
  | [] => simp [pairUp] at h
  | [a] => simp [pairUp] at h
  | a :: b :: ms' =>
    simp only [pairUp, Option.map_eq_some'] at h
    obtain ⟨l, hl, hcons⟩ := h
    obtain ⟨h1, h2⟩ := List.cons.inj hcons
    obtain ⟨ha, hb⟩ := Prod.mk.inj h1
    subst ha; subst hb; subst h2
    exact ⟨ms', rfl, hl⟩

theorem openStep_some {σ : Type} (text : Chars) (st : IterState σ) (m se : Nat)
    (h : pyFindChar '\n' text (m + 3) = some se) :
    openStep text st m = { st with
      blockSuffix := pyLower (pySlice (m + 3) se text)
      sourceStart := some se
      frags := st.frags ++ [pySlice st.textStart m text] } := by
  simp only [openStep, h]

theorem emit_eq_src (src tagX : Chars)
    (hsrc : src = '\n' :: (stripNL src ++ ['\n'])) :
    ("```".toList ++ tagX ++ ['\n']) ++ (stripNL src ++ "\n```".toList) =
      ("```".toList ++ tagX) ++ (src ++ "```".toList) := by
  conv_rhs => rw [hsrc]
  simp [List.append_assoc]

theorem slice_chain (text : Chars) (t0 o se c : Nat)
    (ht0 : t0 ≤ o) (hto : tripleAt text o = true) (htc : tripleAt text c = true)
    (hose : o + 3 ≤ se) (hsec : se < c) :
    pySlice t0 o text ++
      (("```".toList ++ pySlice (o + 3) se text) ++
        (pySlice se c text ++ "```".toList)) = pySlice t0 (c + 3) text := by
  have hlen : ("```".toList : Chars).length = 3 := rfl
  have e1 : pySlice o (o + 3) text = "```".toList := by
    have h := pySlice_of_prefix ("```".toList) text o hto
    rwa [hlen] at h
  have e2 : pySlice c (c + 3) text = "```".toList := by
    have h := pySlice_of_prefix ("```".toList) text c htc
    rwa [hlen] at h
  have h1 : pySlice se c text ++ "```".toList = pySlice se (c + 3) text := by
    rw [← e2]
    exact pySlice_append text (le_of_lt hsec) (by omega)
  have h2 : pySlice (o + 3) se text ++ pySlice se (c + 3) text =
      pySlice (o + 3) (c + 3) text :=
    pySlice_append text hose (by omega)
  have h3 : ("```".toList : Chars) ++ pySlice (o + 3) (c + 3) text =
      pySlice o (c + 3) text := by
    rw [← e1]
    exact pySlice_append text (by omega) (by omega)
  have h4 : pySlice t0 o text ++ pySlice o (c + 3) text = pySlice t0 (c + 3) text :=
    pySlice_append text ht0 (by omega)
  calc pySlice t0 o text ++
        (("```".toList ++ pySlice (o + 3) se text) ++
          (pySlice se c text ++ "```".toList))
      = pySlice t0 o text ++
        (("```".toList ++ pySlice (o + 3) se text) ++ pySlice se (c + 3) text) := by
        rw [h1]
    _ = pySlice t0 o text ++
        ("```".toList ++ (pySlice (o + 3) se text ++ pySlice se (c + 3) text)) := by
        rw [List.append_assoc]
    _ = pySlice t0 o text ++ ("```".toList ++ pySlice (o + 3) (c + 3) text) := by
        rw [h2]
    _ = pySlice t0 o text ++ pySlice o (c + 3) text := by rw [h3]
    _ = pySlice t0 (c + 3) text := h4

/-- Invariant of the fence loop over an all-placeholder document: the pass
succeeds with empty accumulations, an unchanged namespace, and fragments
that concatenate to exactly the scanned region of the text. -/
theorem runMatches_placeholder_inv (σ : Type) (O : Oracles σ) (text : Chars) :
    ∀ (ps : List (Nat × Nat)) (ms : List Nat) (st : IterState σ),
      pairUp ms = some ps →
      placeholderPairsOK text st.textStart ps = true →
      st.pendingSource = [] → st.pendingOutput = [] →
      ∃ st2 : IterState σ, runMatches O text ms false st = Except.ok st2 ∧
        st2.pendingSource = [] ∧ st2.pendingOutput = [] ∧ st2.ctx = st.ctx ∧
        st.textStart ≤ st2.textStart ∧
        concatL st2.frags =
          concatL st.frags ++ pySlice st.textStart st2.textStart text := by
  intro ps
  induction ps with
  | nil =>
    intro ms st hpair hok hps hpo
    have hms := pairUp_eq_nil ms hpair
    subst hms
    exact ⟨st, rfl, hps, hpo, rfl, le_refl _, by rw [pySlice_self, List.append_nil]⟩
  | cons pr rest ih =>
    obtain ⟨o, c⟩ := pr
    intro ms st hpair hok hps hpo
    obtain ⟨ms', hms, hpair'⟩ := pairUp_eq_cons ms o c rest hpair
    subst hms
    cases hfind : pyFindChar '\n' text (o + 3) with
    | none =>
      rw [placeholderPairsOK, hfind] at hok
      simp at hok
    | some se =>
      rw [placeholderPairsOK, hfind] at hok
      simp only [Bool.and_eq_true, decide_eq_true_eq, beq_iff_eq] at hok
      obtain ⟨⟨⟨⟨ht0, hto⟩, htc⟩, ⟨⟨⟨⟨hose, hsec⟩, hlow⟩, htag⟩, hsrc⟩⟩, hrest⟩ := hok
      have hopen := openStep_some text st o se hfind
      have hclose :=
        closeStep_eq_output O text (openStep text st o) c se
          (by rw [hopen]; simpa [hlow] using htag) (by rw [hopen])
      rw [hopen] at hclose
      dsimp only at hclose
      have hdraft :=
        outputBranch_draft O
          { st with
            blockSuffix := pyLower (pySlice (o + 3) se text)
            sourceStart := some se
            frags := st.frags ++ [pySlice st.textStart o text]
            textStart := c + 3 }
          (pyLower (pySlice (o + 3) se text)) (pySlice se c text) hps hpo
      obtain ⟨st2, hrun2, h1, h2, h3, h4, h5⟩ :=
        ih ms'
          { st with
            blockSuffix := pyLower (pySlice (o + 3) se text)
            sourceStart := some se
            frags := (st.frags ++ [pySlice st.textStart o text]) ++
              ["```".toList ++ pyLower (pySlice (o + 3) se text) ++ ['\n'],
               stripNL (pySlice se c text), "\n```".toList]
            textStart := c + 3
            pendingOutput := [] }
          hpair' hrest hps rfl
      have h4' : c + 3 ≤ st2.textStart := h4
      refine ⟨st2, ?_, h1, h2, by rw [h3], by omega, ?_⟩
      · show runMatches O text (o :: c :: ms') false st = Except.ok st2
        simp only [runMatches]
        rw [hopen, hclose, hdraft]
        exact hrun2
      · dsimp only at h5
        rw [h5]
        have hkey : pySlice st.textStart o text ++
            (("```".toList ++ pyLower (pySlice (o + 3) se text) ++ ['\n']) ++
              (stripNL (pySlice se c text) ++ "\n```".toList)) =
            pySlice st.textStart (c + 3) text := by
          rw [hlow, emit_eq_src (pySlice se c text) (pySlice (o + 3) se text) hsrc]
          exact slice_chain text st.textStart o se c ht0 hto htc hose hsec
        have hfr : concatL ((st.frags ++ [pySlice st.textStart o text]) ++
            ["```".toList ++ pyLower (pySlice (o + 3) se text) ++ ['\n'],
             stripNL (pySlice se c text), "\n```".toList]) =
            concatL st.frags ++ pySlice st.textStart (c + 3) text := by
          rw [concatL_append, concatL_append]
          simp only [concatL_cons]
          rw [show (concatL [] : Chars) = [] from rfl]
          simp only [List.append_nil]
          rw [List.append_assoc]
          exact congrArg (fun z => concatL st.frags ++ z) hkey
        rw [hfr, List.append_assoc,
          pySlice_append text (by omega : st.textStart ≤ c + 3) h4']

/-- C5: in overwrite mode the file map is written only after a whole
document pass succeeded; on a fatal failure the batch stops with the file
map exactly as it was — the failing document and all remaining documents are
untouched — and the completion status is non-zero (`1` for the caught
`MarkdownExecError`, a propagated fatal condition otherwise). -/
theorem c5_overwrite_safety (σ : Type) (O : Oracles σ) (fs : FS) (c : σ)
    (p : Chars) (ps : List Chars) :
    (∀ e : Fatal, iterateBlocks O (fs p) c = Except.error e →
       mainLoop O (p :: ps) fs c =
         (fs, if e = Fatal.markdownExecError then Except.ok 1 else Except.error e) ∧
       (mainLoop O (p :: ps) fs c).2 ≠ Except.ok 0)
    ∧ (∀ (fr : List Chars) (c2 : σ),
       iterateBlocks O (fs p) c = Except.ok (fr, c2) →
       mainLoop O (p :: ps) fs c = mainLoop O ps (updFS fs p (concatL fr)) c2) := by
  constructor
  · intro e he
    have h1 : mainLoop O (p :: ps) fs c =
        (fs, if e = Fatal.markdownExecError then Except.ok 1 else Except.error e) := by
      cases e <;> simp only [mainLoop, he] <;> simp
    refine ⟨h1, ?_⟩
    rw [h1]
    cases e <;> simp
  · intro fr c2 hok
    simp only [mainLoop, hok]

/-- C5 witness: a document whose only code block always raises leaves the
file map untouched and completes with status 1. -/
theorem c5_witness :
    iterateBlocks oErrU (fs0 pathA) () = Except.error Fatal.markdownExecError ∧
    mainLoop oErrU [pathA] fs0 () = (fs0, Except.ok 1) :=
  ⟨rfl, by
    have h := ((c5_overwrite_safety Unit oErrU fs0 () pathA []).1
      Fatal.markdownExecError rfl).1
    simpa using h⟩

/-- C6, amended: the persistent namespace is a single mapping threaded
through every execution — each flush mutates it in place, so later blocks
observe earlier definitions — and it is never reset mid-document; but it is
not recreated per document path either: `iterate_blocks` runs every document
against `__main__.__dict__`, so the final namespace of one document seeds
the next document in the batch. -/
theorem c6_namespace_threading (σ : Type) (O : Oracles σ) (fs : FS) (c : σ)
    (p : Chars) (ps : List Chars) :
    ((initState c).ctx = c)
    ∧ (∀ (st : IterState σ) (c2 : σ) (out : Chars),
       O.ex st.ctx st.pendingSource = (c2, ExecResult.ok out) →
       flushPending O st = Except.ok { st with
         ctx := c2
         pendingOutput := st.pendingOutput ++ out
         pendingSource := [] })
    ∧ (∀ (fr : List Chars) (c2 : σ),
       iterateBlocks O (fs p) c = Except.ok (fr, c2) →
       mainLoop O (p :: ps) fs c = mainLoop O ps (updFS fs p (concatL fr)) c2) := by
  refine ⟨rfl, fun st c2 out hex => flushPending_ok O st c2 out hex, fun fr c2 hok => ?_⟩
  simp only [mainLoop, hok]

/-- C6 witness: one flush advances the counting namespace from 5 to 6 and
appends the output computed against the old namespace. -/
theorem c6_witness :
    flushPending oNat stFlush = Except.ok { stFlush with
      ctx := 6
      pendingOutput := stFlush.pendingOutput ++ Nat.toDigits 10 5
      pendingSource := [] } :=
  (c6_namespace_threading Nat oNat fs0 0 pathA []).2.1 stFlush 6 (Nat.toDigits 10 5) rfl

/-- C6 counterexample: processing `pathB` after `pathA` yields a different
rewritten file for `pathB` than processing `pathB` alone from the same
initial namespace — the second path does not start with a fresh
namespace. -/
theorem c6_counterexample :
    (mainLoop oNat [pathA, pathB] fs0 0).1 pathB ≠
      (mainLoop oNat [pathB] fs0 0).1 pathB := by decide

/-- C1, amended: a closing fence whose remembered tag is not a recognized
executable or directive tag is an output placeholder: a non-empty pending
accumulation is consumed and executed, its captured output appended to any
previously pending result and the whole used as the new content; with no
pending accumulation and no pending result the block's prior content is
reused; otherwise the previously computed pending result is used.  The
emitted content is trimmed of surrounding blank lines and the pending result
is cleared after use.  Consequently, a document with no executable blocks
whose fences pair up and whose placeholder blocks are in canonical form
(lowercase tag, body consisting of exactly a leading newline, trimmed
content, and a trailing newline) is rewritten verbatim with an untouched
namespace — but not an arbitrary such document, since trimming and
lowercasing can change non-canonical blocks. -/
theorem c1_output_placeholder (σ : Type) (O : Oracles σ) (text : Chars) :
    (∀ (st : IterState σ) (m ss : Nat) (c2 : σ) (out : Chars),
       tagUnrecognized st.blockSuffix = true → st.sourceStart = some ss →
       st.pendingSource ≠ [] →
       O.ex st.ctx st.pendingSource = (c2, ExecResult.ok out) →
       closeStep O text st m = Except.ok { st with
         textStart := m + 3
         ctx := c2
         pendingSource := []
         pendingOutput := []
         frags := st.frags ++ ["```".toList ++ st.blockSuffix ++ ['\n'],
           stripNL (st.pendingOutput ++ out), "\n```".toList] })
    ∧ (∀ (st : IterState σ) (m ss : Nat),
       tagUnrecognized st.blockSuffix = true → st.sourceStart = some ss →
       st.pendingSource = [] → st.pendingOutput = [] →
       closeStep O text st m = Except.ok { st with
         textStart := m + 3
         pendingOutput := []
         frags := st.frags ++ ["```".toList ++ st.blockSuffix ++ ['\n'],
           stripNL (pySlice ss m text), "\n```".toList] })
    ∧ (∀ (st : IterState σ) (m ss : Nat),
       tagUnrecognized st.blockSuffix = true → st.sourceStart = some ss →
       st.pendingSource = [] → st.pendingOutput ≠ [] →
       closeStep O text st m = Except.ok { st with
         textStart := m + 3
         pendingOutput := []
         frags := st.frags ++ ["```".toList ++ st.blockSuffix ++ ['\n'],
           stripNL st.pendingOutput, "\n```".toList] })
    ∧ (∀ (ps : List (Nat × Nat)) (c0 : σ),
       pairUp (fenceMatches text) = some ps →
       placeholderPairsOK text 0 ps = true →
       Except.map (fun pr => (concatL pr.1, pr.2)) (iterateBlocks O text c0) =
         Except.ok (text, c0)) := by
  refine ⟨fun st m ss c2 out htag hss hne hex => ?_,
          fun st m ss htag hss hps hpo => ?_,
          fun st m ss htag hss hps hpo => ?_,
          fun ps c0 hpair hok => ?_⟩
  · rw [closeStep_eq_output O text st m ss htag hss]
    exact outputBranch_flush_ok O _ st.blockSuffix _ c2 out hne hex
  · rw [closeStep_eq_output O text st m ss htag hss]
    exact outputBranch_draft O _ st.blockSuffix _ hps hpo
  · rw [closeStep_eq_output O text st m ss htag hss]
    exact outputBranch_reuse O _ st.blockSuffix _ hps hpo
  · obtain ⟨st2, hrun, hps2, hpo2, hctx, hle, hcat⟩ :=
      runMatches_placeholder_inv σ O text ps (fenceMatches text) (initState c0)
        hpair hok rfl rfl
    have hctx' : st2.ctx = c0 := hctx
    have hcat' : concatL st2.frags = text.take st2.textStart := by
      simp only [initState] at hcat
      rw [hcat]
      rw [show concatL ([] : List Chars) = [] from rfl, List.nil_append, pySlice_zero]
    simp only [iterateBlocks, hrun, finishBlocks]
    rw [if_pos hps2]
    simp only [Except.map]
    rw [concatL_append, concatL_cons,
      show concatL ([] : List Chars) = [] from rfl, List.append_nil, hcat',
      List.take_append_drop, hctx']

/-- C1 witness: the three placeholder cases and the canonical verbatim pass
at concrete inputs. -/
theorem c1_witness :
    (closeStep oUnit ("xx".toList) stBoth 0 = Except.ok { stBoth with
       textStart := 0 + 3
       ctx := ()
       pendingSource := []
       pendingOutput := []
       frags := stBoth.frags ++ ["```".toList ++ stBoth.blockSuffix ++ ['\n'],
         stripNL (stBoth.pendingOutput ++ "out\n".toList), "\n```".toList] })
    ∧ (closeStep oUnit ("xx".toList) stEmpty 0 = Except.ok { stEmpty with
       textStart := 0 + 3
       pendingOutput := []
       frags := stEmpty.frags ++ ["```".toList ++ stEmpty.blockSuffix ++ ['\n'],
         stripNL (pySlice 0 0 ("xx".toList)), "\n```".toList] })
    ∧ (closeStep oUnit ("xx".toList) stOut 0 = Except.ok { stOut with
       textStart := 0 + 3
       pendingOutput := []
       frags := stOut.frags ++ ["```".toList ++ stOut.blockSuffix ++ ['\n'],
         stripNL stOut.pendingOutput, "\n```".toList] })
    ∧ Except.map (fun pr => (concatL pr.1, pr.2)) (iterateBlocks oUnit docCanon ()) =
        Except.ok (docCanon, ()) :=
  ⟨(c1_output_placeholder Unit oUnit ("xx".toList)).1 stBoth 0 0 () ("out\n".toList)
     (by decide) rfl (by decide) rfl,
   (c1_output_placeholder Unit oUnit ("xx".toList)).2.1 stEmpty 0 0
     (by decide) rfl rfl rfl,
   (c1_output_placeholder Unit oUnit ("xx".toList)).2.2.1 stOut 0 0
     (by decide) rfl rfl (by decide),
   (c1_output_placeholder Unit oUnit docCanon).2.2.2 [(4, 16)] ()
     rfl (by decide)⟩

/-- C1 counterexample: a document with no executable blocks whose
placeholder body carries extra blank lines is not rewritten verbatim (the
blank lines are trimmed), and when both a pending accumulation and a pending
result exist the block's new content is the trimmed concatenation of both,
not the captured output alone. -/
theorem c1_counterexample :
    Except.map (fun pr => concatL pr.1) (iterateBlocks oUnit docBlank ()) =
      Except.ok ("pre\n```\nX\n```\npost\n".toList) ∧
    "pre\n```\nX\n```\npost\n".toList ≠ docBlank ∧
    Except.map (fun s => IterState.frags s) (closeStep oUnit ("xx".toList) stBoth 0) =
      Except.ok ["```\n".toList, "R\nout".toList, "\n```".toList] ∧
    "R\nout".toList ≠ "out\n".toList :=
  ⟨rfl, by decide, rfl, by decide⟩

end Pyliterate
